import Mathlib

/-!
Verification of the chunked IR-transfer protocol implemented in
`drivers/tuya_ir_blaster/device.js` (class `ZS06IRRemote`).

The JavaScript handlers are shallowly embedded as pure Lean functions:
the mutable `irStore` (a JS `Map` from 16-bit sequence numbers to session
entries) becomes an association list, each event handler becomes a function
from the store (plus the decoded payload fields) to the new store together
with the list of outbound protocol events it emits, and the JS `Buffer`s
become lists of natural numbers (each element a byte value).  Logging calls
have no observable effect and are dropped.
-/

namespace ZS06

/-- Minimum plausible learned-code length (`MIN_LEARN_LENGTH` in device.js). -/
def MIN_LEARN_LENGTH : Nat := 90

/-- Length above which a learned code is merely warned about
(`LONG_LEARN_LENGTH` in device.js). -/
def LONG_LEARN_LENGTH : Nat := 300

/-- A session entry in `irStore`.  `_onCode00` stores
`{ buf, position, length, skipSave }` for a Receive (learning) session;
`initiateIRSend` stores `{ data, length }` for a Send session, where `data`
is the textual JSON message (modelled as a list of characters). -/
inductive IREntry where
  | recv (buf : List Nat) (position : Nat) (length : Nat) (skipSave : Bool)
  | send (data : List Char) (length : Nat)
  deriving DecidableEq

/-- The session store: JS `Map` keyed by sequence number. -/
abbrev IRStore := List (Nat × IREntry)

/-- `Map.get` — lookup by key. -/
def storeGet : IRStore → Nat → Option IREntry
  | [], _ => none
  | p :: t, k => if p.1 = k then some p.2 else storeGet t k

/-- `Map.delete` — remove the entry with the given key. -/
def storeDel : IRStore → Nat → IRStore
  | [], _ => []
  | p :: t, k => if p.1 = k then storeDel t k else p :: storeDel t k

/-- `Map.set` — insert or overwrite the entry with the given key. -/
def storeSet (s : IRStore) (k : Nat) (v : IREntry) : IRStore :=
  (k, v) :: storeDel s k

/-- The `skipSave` field of a stored entry (false/undefined for Send entries). -/
def entrySkip : IREntry → Bool
  | .recv _ _ _ s => s
  | .send _ _ => false

theorem storeGet_set_self (s : IRStore) (k : Nat) (v : IREntry) :
    storeGet (storeSet s k v) k = some v := by
  simp [storeGet, storeSet]

theorem storeGet_del_self (s : IRStore) (k : Nat) :
    storeGet (storeDel s k) k = none := by
  induction s with
  | nil => rfl
  | cons p t ih =>
      by_cases h : p.1 = k
      · simpa [storeDel, h] using ih
      · simpa [storeDel, storeGet, h] using ih

theorem storeGet_del_ne (s : IRStore) (k k' : Nat) (h : k' ≠ k) :
    storeGet (storeDel s k) k' = storeGet s k' := by
  induction s with
  | nil => rfl
  | cons p t ih =>
      by_cases hp : p.1 = k
      · have hq : p.1 ≠ k' := by
          rw [hp]; exact fun hc => h hc.symm
        have h1 : storeDel (p :: t) k = storeDel t k := by simp [storeDel, hp]
        rw [h1]
        have h2 : storeGet (p :: t) k' = storeGet t k' := by simp [storeGet, hq]
        rw [h2]; exact ih
      · have h1 : storeDel (p :: t) k = p :: storeDel t k := by simp [storeDel, hp]
        rw [h1]
        by_cases hq : p.1 = k'
        · simp [storeGet, hq]
        · have h2 : storeGet (p :: storeDel t k) k' = storeGet (storeDel t k) k' := by
            simp [storeGet, hq]
          have h3 : storeGet (p :: t) k' = storeGet t k' := by simp [storeGet, hq]
          rw [h2, h3]; exact ih

theorem storeGet_set_ne (s : IRStore) (k k' : Nat) (v : IREntry) (h : k' ≠ k) :
    storeGet (storeSet s k v) k' = storeGet s k' := by
  have h2 : k ≠ k' := fun hc => h hc.symm
  simpa [storeSet, storeGet, h2] using storeGet_del_ne s k k' h

/-- `calcCrc` from device.js: sum of the byte values of a buffer, modulo 256. -/
def calcCrc (buffer : List Nat) : Nat :=
  (buffer.foldl (· + ·) 0) % 256

/-- `calcStringCrc` from device.js: sum of the character codes of a string,
modulo 256. -/
def calcStringCrc (str : List Char) : Nat :=
  ((str.map Char.toNat).foldl (· + ·) 0) % 256

/-- The length-prefix detection applied to an inbound `msgpart` in
`_onCode03` / `_onCode03Bound`:
`msgData.length > 1 && msgData[0] === msgData.length - 1 && msgData[0] <= 0x38`. -/
def hasLenByte (msgData : List Nat) : Bool :=
  decide (msgData.length > 1) && (msgData.headD 0 == msgData.length - 1)
    && decide (msgData.headD 0 ≤ 56)

/-- Stripping of the optional leading length byte (`msgData.slice(1)` when
`hasLenByte` holds, the chunk unchanged otherwise). -/
def stripLenByte (msgData : List Nat) : List Nat :=
  if hasLenByte msgData then msgData.drop 1 else msgData

/-- The detection rule for the optional length prefix as the spec words it:
"first byte equals `chunk.length - 1` AND that value is ≤ the maximum
admissible chunk size constant" (56).  Used only to compare the spec with
the `hasLenByte` rule of the code. -/
def specLeadByteRule (chunk : List Nat) : Prop :=
  chunk ≠ [] ∧ chunk.headD 0 = chunk.length - 1 ∧ chunk.headD 0 ≤ 56

instance (chunk : List Nat) : Decidable (specLeadByteRule chunk) := by
  unfold specLeadByteRule; infer_instance

/-- Outbound protocol events emitted by the handlers (the cluster commands
and user-visible effects of device.js, with the fields the handlers set). -/
inductive OutEvent where
  | code01 (seq length cmd : Nat)
  | code02 (seq position maxlen : Nat)
  | code03 (seq position : Nat) (msgpart : List Char) (msgpartcrc : Nat)
  | code04 (seq : Nat)
  | saveSetting (code : List Nat)
  | trigger (code : List Nat)
  | study (flag : Nat)
  deriving DecidableEq

/-- The entry `_onCode00` creates for a device-initiated (learning) session:
`{ buf: Buffer.alloc(length), position: 0, length, skipSave }` where
`skipSave = payload.cmd === 4 && payload.length < MIN_LEARN_LENGTH`. -/
def mkLearnEntry (length cmd : Nat) : IREntry :=
  .recv (List.replicate length 0) 0 length
    ((cmd == 4) && decide (length < MIN_LEARN_LENGTH))

/-- `_onCode00`: on a duplicate sequence, return without touching the store or
sending anything; otherwise create the session entry and emit the Code01
acknowledgment followed by the first Code02 chunk request
(`position: 0, maxlen: 0x38`). -/
def onCode00 (store : IRStore) (seq length cmd : Nat) : IRStore × List OutEvent :=
  match storeGet store seq with
  | some _ => (store, [])
  | none =>
      (storeSet store seq (mkLearnEntry length cmd),
       [.code01 seq length cmd, .code02 seq 0 56])

/-- `_onCode02`: look up the Send entry; missing entry or an entry without
`data` (a Receive entry) is logged and dropped.  Otherwise take
`entry.data.substring(position, position + 0x32)` — a fixed 50-character
chunk, the `maxlen` field of the request is not consulted — and emit Code03
with `calcStringCrc` of that chunk. -/
def onCode02 (store : IRStore) (seq position maxlen : Nat) : IRStore × List OutEvent :=
  match storeGet store seq with
  | none => (store, [])
  | some (.recv _ _ _ _) => (store, [])
  | some (.send data _) =>
      let part := (data.drop position).take 50
      (store, [.code03 seq position part (calcStringCrc part)])

/-- `Buffer.copy`: write `src` into `target` starting at `targetStart`,
truncating at the end of `target`. -/
def bufCopy (target : List Nat) (src : List Nat) (targetStart : Nat) : List Nat :=
  target.take targetStart ++ src.take (target.length - targetStart)
    ++ target.drop (targetStart + src.length)

/-- The buffer/position update of `_onCode03` (and `_onCode03Bound`): copy the
chunk at the current position when it fits, otherwise copy only
`buf.length - position` bytes and advance to the end of the buffer. -/
def code03Update (buf : List Nat) (position : Nat) (msgData : List Nat) :
    List Nat × Nat :=
  if position + msgData.length ≤ buf.length then
    (bufCopy buf msgData position, position + msgData.length)
  else
    let copyLen := buf.length - position
    (bufCopy buf (msgData.take copyLen) position, position + copyLen)

/-- `_onCode03`: look up the session entry (missing entry: drop; a Send entry
has no `buf`, the copy throws and is caught, leaving the store unchanged);
strip the optional length prefix from `msgpart`; compute `calcCrc` of the
stripped chunk for the log only — a mismatch with `msgpartcrc` has no
effect; copy the stripped chunk at `entry.position` — the `position` field
of the payload is never compared with the entrys cursor — and emit either
the next Code02 request or the Code04 completion.  `_onCode03Bound` performs
the same store update and emissions. -/
def onCode03 (store : IRStore) (seq position : Nat) (msgpart : List Nat)
    (msgpartcrc : Nat) : IRStore × List OutEvent :=
  match storeGet store seq with
  | none => (store, [])
  | some (.send _ _) => (store, [])
  | some (.recv buf pos length skipSave) =>
      let msgData := stripLenByte msgpart
      let upd := code03Update buf pos msgData
      let store2 := storeSet store seq (.recv upd.1 upd.2 length skipSave)
      if upd.2 < length then
        (store2, [.code02 seq upd.2 56])
      else
        (store2, [.code04 seq])

/-- Device state for the completion handler: the session store plus
`_lastLearnSeqHandled`. -/
structure DevState where
  store : IRStore
  lastLearnSeqHandled : Option Nat
  deriving DecidableEq

/-- `_onCode05`: dedupe on `_lastLearnSeqHandled`; drop when the entry is
missing; when `entry.skipSave` is set, delete the session and return without
emitting anything; otherwise surface the learned buffer (saved to settings
and fired on the flow trigger — the JS base64-encodes `entry.buf` first, the
events here carry the raw bytes), stop capture mode (`study: 1`) and delete
the session.  (A Send entry has no `buf`; its `toString` throws after the
dedupe mark is set and before any emission, so the store is unchanged.) -/
def onCode05 (st : DevState) (seq : Nat) : DevState × List OutEvent :=
  if st.lastLearnSeqHandled = some seq then (st, [])
  else
    match storeGet st.store seq with
    | none => (⟨st.store, some seq⟩, [])
    | some (.send _ _) => (⟨st.store, some seq⟩, [])
    | some (.recv buf _ _ skipSave) =>
        if skipSave then (⟨storeDel st.store seq, some seq⟩, [])
        else
          (⟨storeDel st.store seq, some seq⟩,
           [.saveSetting buf, .trigger buf, .study 1])

/-- The sequence number `initiateIRSend` allocates from the `currentSeq`
counter: `(this.currentSeq++) % 0x10000`. -/
def allocSeq (currentSeq : Nat) : Nat := currentSeq % 65536

/-- `initiateIRSend`, successful path: allocate the next sequence number,
store `{ data: irMsg, length: irMsg.length }` under it (a JS `Map.set`,
overwriting any open entry with that key), and send Code00.  Returns the new
store, the allocated sequence and the incremented counter. -/
def initiateIRSend (store : IRStore) (currentSeq : Nat) (irMsg : List Char) :
    IRStore × Nat × Nat :=
  let seq := allocSeq currentSeq
  (storeSet store seq (.send irMsg irMsg.length), seq, currentSeq + 1)

/-- `initiateIRSend` when sending Code00 throws: the `catch` block deletes
the just-created entry (`this.irStore.delete(seq)`) before rethrowing. -/
def initiateIRSendFail (store : IRStore) (currentSeq : Nat) (irMsg : List Char) :
    IRStore × Nat × Nat :=
  let seq := allocSeq currentSeq
  (storeDel (storeSet store seq (.send irMsg irMsg.length)) seq, seq, currentSeq + 1)

theorem char_toNat_ofNat_of_lt (x : Nat) (h : x < 256) : (Char.ofNat x).toNat = x := by
  have hv : x.isValidChar := Or.inl (by omega)
  simp [Char.ofNat, hv, Char.ofNatAux, Char.toNat, UInt32.toNat, BitVec.toNat_ofNatLt]

theorem code03Update_fit (buf : List Nat) (pos : Nat) (msgData : List Nat)
    (hfit : pos + msgData.length ≤ buf.length) :
    code03Update buf pos msgData = (bufCopy buf msgData pos, pos + msgData.length) := by
  simp [code03Update, hfit]

theorem onCode03_recv (store : IRStore) (seq position : Nat) (msgpart : List Nat)
    (msgpartcrc : Nat) (buf : List Nat) (pos len : Nat) (skip : Bool)
    (hentry : storeGet store seq = some (.recv buf pos len skip)) :
    onCode03 store seq position msgpart msgpartcrc
      = (storeSet store seq
           (.recv (code03Update buf pos (stripLenByte msgpart)).1
             (code03Update buf pos (stripLenByte msgpart)).2 len skip),
         if (code03Update buf pos (stripLenByte msgpart)).2 < len
         then [.code02 seq (code03Update buf pos (stripLenByte msgpart)).2 56]
         else [.code04 seq]) := by
  simp only [onCode03, hentry]
  split_ifs <;> simp

/-- C1, counterexample.  A Receive session with cursor 0 receives a Code03
chunk whose offset field is 5 ≠ 0; the claim says the cursor stays 0 and the
buffer is untouched, but the handler writes the chunk at the cursor and
advances it to 1. -/
theorem c1_counterexample :
    storeGet (onCode03 [(1, .recv [0, 0, 0] 0 3 false)] 1 5 [7] 7).1 1
      = some (.recv [7, 0, 0] 1 3 false)
    ∧ (5 : Nat) ≠ 0 := by decide

/-- C1, amended.  `_onCode03` never compares the offset field of a
chunk-delivery with the session cursor: the result of processing the event is
identical for any two offset values, and (for a chunk that fits) the chunk is
written at the cursor and the cursor advances by the stripped chunk length
regardless of the offset carried by the event. -/
theorem c1_offset_field_ignored (store : IRStore) (seq p1 p2 : Nat)
    (msgpart : List Nat) (msgpartcrc : Nat) (buf : List Nat) (pos len : Nat)
    (skip : Bool) :
    onCode03 store seq p1 msgpart msgpartcrc = onCode03 store seq p2 msgpart msgpartcrc
    ∧ (storeGet store seq = some (.recv buf pos len skip) →
        pos + (stripLenByte msgpart).length ≤ buf.length →
        storeGet (onCode03 store seq p1 msgpart msgpartcrc).1 seq
          = some (.recv (bufCopy buf (stripLenByte msgpart) pos)
              (pos + (stripLenByte msgpart).length) len skip)) := by
  constructor
  · cases h : storeGet store seq with
    | none => simp [onCode03, h]
    | some e =>
        cases e with
        | recv b p l s => simp [onCode03, h]
        | send d l => simp [onCode03, h]
  · intro hentry hfit
    rw [onCode03_recv store seq p1 msgpart msgpartcrc buf pos len skip hentry,
      code03Update_fit buf pos (stripLenByte msgpart) hfit]
    exact storeGet_set_self store seq _

/-- C1, witness for the amended theorem at a concrete input. -/
theorem c1_offset_field_ignored_witness :
    onCode03 [(1, .recv [0, 0, 0] 0 3 false)] 1 5 [7] 7
      = onCode03 [(1, .recv [0, 0, 0] 0 3 false)] 1 0 [7] 7
    ∧ storeGet (onCode03 [(1, .recv [0, 0, 0] 0 3 false)] 1 5 [7] 7).1 1
        = some (.recv (bufCopy [0, 0, 0] (stripLenByte [7]) 0)
            (0 + (stripLenByte [7]).length) 3 false) :=
  ⟨(c1_offset_field_ignored [(1, .recv [0, 0, 0] 0 3 false)] 1 5 0 [7] 7
      [0, 0, 0] 0 3 false).1,
   (c1_offset_field_ignored [(1, .recv [0, 0, 0] 0 3 false)] 1 5 0 [7] 7
      [0, 0, 0] 0 3 false).2 (by decide) (by decide)⟩

/-- C3.  A Code03 chunk whose recomputed byte-sum checksum differs from the
declared `msgpartcrc` is written into the buffer at the cursor all the same,
the cursor advances, and either the next chunk request or the completion
event is still emitted; indeed the handler result does not depend on the
declared checksum at all. -/
theorem c3_crc_mismatch_tolerated (store : IRStore) (seq position : Nat)
    (msgpart : List Nat) (msgpartcrc : Nat) (buf : List Nat) (pos len : Nat)
    (skip : Bool)
    (hentry : storeGet store seq = some (.recv buf pos len skip))
    (hmis : calcCrc (stripLenByte msgpart) ≠ msgpartcrc)
    (hfit : pos + (stripLenByte msgpart).length ≤ buf.length) :
    storeGet (onCode03 store seq position msgpart msgpartcrc).1 seq
      = some (.recv (bufCopy buf (stripLenByte msgpart) pos)
          (pos + (stripLenByte msgpart).length) len skip)
    ∧ ((onCode03 store seq position msgpart msgpartcrc).2
          = [.code02 seq (pos + (stripLenByte msgpart).length) 56]
        ∨ (onCode03 store seq position msgpart msgpartcrc).2 = [.code04 seq])
    ∧ (∀ c : Nat, onCode03 store seq position msgpart c
          = onCode03 store seq position msgpart msgpartcrc) := by
  have hrw := onCode03_recv store seq position msgpart msgpartcrc buf pos len skip hentry
  rw [code03Update_fit buf pos (stripLenByte msgpart) hfit] at hrw
  refine ⟨?_, ?_, ?_⟩
  · rw [hrw]
    exact storeGet_set_self store seq _
  · rw [hrw]
    by_cases hc : pos + (stripLenByte msgpart).length < len
    · left; simp [hc]
    · right; simp [hc]
  · intro c
    rw [hrw, onCode03_recv store seq position msgpart c buf pos len skip hentry,
      code03Update_fit buf pos (stripLenByte msgpart) hfit]

/-- C3, witness: a chunk with a wrong declared checksum is still written and
the next request is still emitted. -/
theorem c3_crc_mismatch_tolerated_witness :
    storeGet (onCode03 [(2, .recv [0, 0] 0 2 false)] 2 0 [5] 9).1 2
      = some (.recv (bufCopy [0, 0] (stripLenByte [5]) 0)
          (0 + (stripLenByte [5]).length) 2 false)
    ∧ ((onCode03 [(2, .recv [0, 0] 0 2 false)] 2 0 [5] 9).2
          = [.code02 2 (0 + (stripLenByte [5]).length) 56]
        ∨ (onCode03 [(2, .recv [0, 0] 0 2 false)] 2 0 [5] 9).2 = [.code04 2])
    ∧ (∀ c : Nat, onCode03 [(2, .recv [0, 0] 0 2 false)] 2 0 [5] c
          = onCode03 [(2, .recv [0, 0] 0 2 false)] 2 0 [5] 9) :=
  c3_crc_mismatch_tolerated [(2, .recv [0, 0] 0 2 false)] 2 0 [5] 9 [0, 0] 0 2 false
    (by decide) (by decide) (by decide)

/-- C4, counterexample.  The one-byte chunk `[0]` satisfies the detection
rule as the claim states it (first byte `0 = length - 1` and `0 ≤ 56`), yet
the code does not strip it: `stripLenByte` additionally requires
`msgData.length > 1` and leaves `[0]` unchanged. -/
theorem c4_counterexample :
    specLeadByteRule [0] ∧ stripLenByte [0] = [0]
    ∧ stripLenByte [0] ≠ List.drop 1 [0] := by decide

/-- C4, amended.  A chunk is stripped of its leading byte exactly when its
length is greater than 1 AND its first byte equals the chunk length minus 1
AND that value is at most 56; any chunk of length at most 1, or not matching
the rule, is kept unchanged. -/
theorem c4_len_byte_rule (msg : List Nat) :
    (msg.length > 1 → (stripLenByte msg = msg.drop 1 ↔ specLeadByteRule msg))
    ∧ (msg.length ≤ 1 → stripLenByte msg = msg) := by
  constructor
  · intro hlen
    by_cases hb : hasLenByte msg = true
    · have hr : stripLenByte msg = msg.drop 1 := by simp [stripLenByte, hb]
      simp only [hasLenByte, Bool.and_eq_true, decide_eq_true_eq, beq_iff_eq] at hb
      constructor
      · intro _
        exact ⟨by rintro rfl; simp at hlen, hb.1.2, hb.2⟩
      · intro _
        exact hr
    · have hr : stripLenByte msg = msg := by simp [stripLenByte, hb]
      simp only [hasLenByte, Bool.and_eq_true, decide_eq_true_eq, beq_iff_eq,
        not_and] at hb
      constructor
      · intro hd
        exfalso
        have : (msg.drop 1).length = msg.length := by rw [← hd, hr]
        simp only [List.length_drop] at this
        omega
      · intro hrule
        exact ((hb ⟨hlen, hrule.2.1⟩) hrule.2.2).elim
  · intro hlen
    have hb : hasLenByte msg = false := by
      simp only [hasLenByte, Bool.and_eq_false_iff]
      left; left
      simpa using hlen
    simp [stripLenByte, hb]

/-- C4, witness: a two-byte chunk `[1, 9]` matches the amended rule and is
stripped; the empty chunk is kept unchanged. -/
theorem c4_len_byte_rule_witness :
    (([1, 9] : List Nat).length > 1 →
      (stripLenByte [1, 9] = List.drop 1 [1, 9] ↔ specLeadByteRule [1, 9]))
    ∧ (([1, 9] : List Nat).length ≤ 1 → stripLenByte [1, 9] = [1, 9]) :=
  c4_len_byte_rule [1, 9]

/-- C7.  A Code00 handshake for a sequence that is already open in the store
leaves the store unchanged and emits nothing: no Code01 acknowledgment and no
Code02 chunk request. -/
theorem c7_duplicate_open_noop (store : IRStore) (seq length cmd : Nat)
    (e : IREntry) (hopen : storeGet store seq = some e) :
    onCode00 store seq length cmd = (store, []) := by
  simp [onCode00, hopen]

/-- C7, witness at a concrete open session. -/
theorem c7_duplicate_open_noop_witness :
    onCode00 [(3, .recv [0] 0 1 false)] 3 99 4 = ([(3, .recv [0] 0 1 false)], []) :=
  c7_duplicate_open_noop [(3, .recv [0] 0 1 false)] 3 99 4 (.recv [0] 0 1 false)
    (by decide)

set_option maxRecDepth 8000

/-- C2, counterexample.  A Code02 request with `maxlen = 10` against a Send
session holding 60 characters is answered with a 50-character chunk: the
handler uses the fixed chunk size `0x32` and never consults `maxlen`, so the
emitted chunk is not `min(requested_max, chunk_limit)` bytes long. -/
theorem c2_counterexample :
    (onCode02 [(2, .send (List.replicate 60 'a') 60)] 2 0 10).2
      = [.code03 2 0 (List.replicate 50 'a') 242]
    ∧ (List.replicate 50 'a').length ≠ min 10 50 := by decide

/-- C2, amended.  For a Send session, a Code02 request is answered by a Code03
carrying exactly `min(50, remaining)` characters of the stored message
starting at the requested offset — the fixed hub-side chunk size 0x32 = 50,
with the requested maximum ignored — together with `calcStringCrc` (sum of
character codes modulo 256) of that chunk, and the store is unchanged. -/
theorem c2_send_chunk (store : IRStore) (seq position maxlen : Nat)
    (data : List Char) (len : Nat)
    (hentry : storeGet store seq = some (.send data len)) :
    onCode02 store seq position maxlen
      = (store, [.code03 seq position ((data.drop position).take 50)
          (calcStringCrc ((data.drop position).take 50))])
    ∧ ((data.drop position).take 50).length = min 50 (data.length - position) := by
  constructor
  · simp [onCode02, hentry]
  · simp [List.length_take, List.length_drop]

/-- C2, witness for the amended theorem at a concrete Send session. -/
theorem c2_send_chunk_witness :
    onCode02 [(2, .send ['a', 'b', 'c'] 3)] 2 1 7
      = ([(2, .send ['a', 'b', 'c'] 3)],
         [.code03 2 1 ((['a', 'b', 'c'].drop 1).take 50)
           (calcStringCrc ((['a', 'b', 'c'].drop 1).take 50))])
    ∧ (((['a', 'b', 'c'] : List Char).drop 1).take 50).length
        = min 50 (['a', 'b', 'c'].length - 1) :=
  c2_send_chunk [(2, .send ['a', 'b', 'c'] 3)] 2 1 7 ['a', 'b', 'c'] 3 (by decide)

/-- C5, counterexample.  A learning handshake with `cmd = 4` and declared
length 301 — above `LONG_LEARN_LENGTH = 300`, hence implausibly large by the
claim — creates a session whose `skipSave` flag is false: the code only warns
about long captures and discards nothing. -/
theorem c5_counterexample :
    LONG_LEARN_LENGTH < 301
    ∧ storeGet (onCode00 [] 7 301 4).1 7 = some (mkLearnEntry 301 4)
    ∧ entrySkip (mkLearnEntry 301 4) = false := by decide

/-- C5, amended.  The discard flag of a newly created Receive session is set
exactly when the handshake carries `cmd = 4` and a declared length below
`MIN_LEARN_LENGTH = 90`; an implausibly large length does not set it.  When
the flag is set, the completion handler deletes the session and emits
nothing: no learned code is saved, triggered, and no capture-mode stop is
sent. -/
theorem c5_discard_policy (store : IRStore) (seq length cmd : Nat)
    (st : DevState) (seq2 : Nat) (buf : List Nat) (pos len : Nat)
    (hfresh : storeGet store seq = none)
    (hnd : st.lastLearnSeqHandled ≠ some seq2)
    (hentry : storeGet st.store seq2 = some (.recv buf pos len true)) :
    (storeGet (onCode00 store seq length cmd).1 seq = some (mkLearnEntry length cmd)
      ∧ (entrySkip (mkLearnEntry length cmd) = true
          ↔ (cmd = 4 ∧ length < MIN_LEARN_LENGTH)))
    ∧ onCode05 st seq2 = (⟨storeDel st.store seq2, some seq2⟩, []) := by
  refine ⟨⟨?_, ?_⟩, ?_⟩
  · simp [onCode00, hfresh, storeGet_set_self]
  · simp [mkLearnEntry, entrySkip, Bool.and_eq_true, decide_eq_true_eq, beq_iff_eq]
  · simp [onCode05, hnd, hentry]

/-- C5, witness: a 40-byte learn result is flagged for discard at creation,
and completing a flagged session removes it silently. -/
theorem c5_discard_policy_witness :
    (storeGet (onCode00 [] 1 40 4).1 1 = some (mkLearnEntry 40 4)
      ∧ (entrySkip (mkLearnEntry 40 4) = true ↔ ((4 : Nat) = 4 ∧ 40 < MIN_LEARN_LENGTH)))
    ∧ onCode05 ⟨[(2, .recv [1, 2] 2 2 true)], none⟩ 2
        = (⟨storeDel [(2, .recv [1, 2] 2 2 true)] 2, some 2⟩, []) :=
  c5_discard_policy [] 1 40 4 ⟨[(2, .recv [1, 2] 2 2 true)], none⟩ 2 [1, 2] 2 2
    (by decide) (by decide) (by decide)

/-- C6, counterexample.  With sequence 0 open in the store and the counter at
0, `initiateIRSend` allocates sequence 0 again and overwrites the open entry:
open sequence values are not skipped. -/
theorem c6_counterexample :
    storeGet [(0, IREntry.recv [] 0 0 false)] 0 = some (.recv [] 0 0 false)
    ∧ (initiateIRSend [(0, .recv [] 0 0 false)] 0 []).2.1 = 0
    ∧ storeGet (initiateIRSend [(0, .recv [] 0 0 false)] 0 []).1 0
        = some (.send [] 0) := by decide

/-- C6, amended.  Sequence allocation is the counter reduced modulo 65536,
independent of the store: consecutive allocations step by one modulo 65536
and 65536 consecutive allocations return to the first value, but a sequence
value still open in the store is not skipped (see the counterexample: the
colliding entry is overwritten). -/
theorem c6_seq_wraps (store : IRStore) (currentSeq : Nat) (irMsg : List Char) :
    (initiateIRSend store currentSeq irMsg).2.1 = allocSeq currentSeq
    ∧ allocSeq (currentSeq + 1) = (allocSeq currentSeq + 1) % 65536
    ∧ allocSeq (currentSeq + 65536) = allocSeq currentSeq := by
  refine ⟨rfl, ?_, ?_⟩
  · unfold allocSeq; omega
  · unfold allocSeq; omega

/-- C8.  When an in-order chunk would carry the cursor past the end of the
buffer, only the `buf.length - position` bytes that fit are copied, the
cursor advances to exactly `buf.length`, and after any chunk write the cursor
never exceeds the buffer length. -/
theorem c8_overflow_truncation (store : IRStore) (seq position : Nat)
    (msgpart : List Nat) (msgpartcrc : Nat) (buf : List Nat) (pos len : Nat)
    (skip : Bool)
    (hentry : storeGet store seq = some (.recv buf pos len skip))
    (hinv : pos ≤ buf.length) :
    storeGet (onCode03 store seq position msgpart msgpartcrc).1 seq
      = some (.recv (code03Update buf pos (stripLenByte msgpart)).1
          (code03Update buf pos (stripLenByte msgpart)).2 len skip)
    ∧ (code03Update buf pos (stripLenByte msgpart)).2 ≤ buf.length
    ∧ (buf.length < pos + (stripLenByte msgpart).length →
        (code03Update buf pos (stripLenByte msgpart)).2 = buf.length
        ∧ (code03Update buf pos (stripLenByte msgpart)).1
            = bufCopy buf ((stripLenByte msgpart).take (buf.length - pos)) pos) := by
  refine ⟨?_, ?_, ?_⟩
  · rw [onCode03_recv store seq position msgpart msgpartcrc buf pos len skip hentry]
    split_ifs <;> simp [storeGet_set_self]
  · unfold code03Update
    split_ifs with h <;> simp <;> omega
  · intro hover
    have hn : ¬(pos + (stripLenByte msgpart).length ≤ buf.length) := by omega
    constructor
    · unfold code03Update
      rw [if_neg hn]
      show pos + (buf.length - pos) = buf.length
      omega
    · unfold code03Update
      rw [if_neg hn]

/-- C8, witness: cursor 2 in a 3-byte buffer receiving a 2-byte chunk copies
one byte and lands exactly on the end of the buffer. -/
theorem c8_overflow_truncation_witness :
    storeGet (onCode03 [(4, .recv [0, 0, 0] 2 3 false)] 4 2 [8, 9] 17).1 4
      = some (.recv (code03Update [0, 0, 0] 2 (stripLenByte [8, 9])).1
          (code03Update [0, 0, 0] 2 (stripLenByte [8, 9])).2 3 false)
    ∧ (code03Update [0, 0, 0] 2 (stripLenByte [8, 9])).2 ≤ ([0, 0, 0] : List Nat).length
    ∧ (([0, 0, 0] : List Nat).length < 2 + (stripLenByte [8, 9]).length →
        (code03Update [0, 0, 0] 2 (stripLenByte [8, 9])).2 = ([0, 0, 0] : List Nat).length
        ∧ (code03Update [0, 0, 0] 2 (stripLenByte [8, 9])).1
            = bufCopy [0, 0, 0] ((stripLenByte [8, 9]).take (([0, 0, 0] : List Nat).length - 2)) 2) :=
  c8_overflow_truncation [(4, .recv [0, 0, 0] 2 3 false)] 4 2 [8, 9] 17 [0, 0, 0]
    2 3 false (by decide) (by decide)

theorem map_toNat_ofNat (b : List Nat) (h : ∀ x ∈ b, x < 256) :
    (b.map Char.ofNat).map Char.toNat = b := by
  induction b with
  | nil => rfl
  | cons x t ih =>
      simp only [List.map_cons, List.cons.injEq]
      exact ⟨char_toNat_ofNat_of_lt x (h x (List.mem_cons_self x t)),
        ih (fun y hy => h y (List.mem_cons_of_mem x hy))⟩

/-- C9.  `calcCrc` always yields a value below 256 (and, being a pure
function, the same value on the same input), and on a byte string whose
values all fit in a single byte it agrees with `calcStringCrc` applied to the
character decoding of those bytes: both are the sum of the underlying values
modulo 256. -/
theorem c9_checksum_agreement (b : List Nat) :
    calcCrc b < 256
    ∧ ((∀ x ∈ b, x < 256) → calcStringCrc (b.map Char.ofNat) = calcCrc b) := by
  constructor
  · exact Nat.mod_lt _ (by norm_num)
  · intro h
    unfold calcStringCrc calcCrc
    rw [map_toNat_ofNat b h]

/-- C9, witness on a concrete byte string. -/
theorem c9_checksum_agreement_witness :
    calcCrc [65, 200] < 256
    ∧ calcStringCrc (([65, 200] : List Nat).map Char.ofNat) = calcCrc [65, 200] :=
  ⟨(c9_checksum_agreement [65, 200]).1,
   (c9_checksum_agreement [65, 200]).2 (by decide)⟩

/-- C10.  When sending the Code00 handshake throws, `initiateIRSend` deletes
the entry it just created before rethrowing: the resulting store has no entry
for the allocated sequence, and every other sequence maps exactly as it did
before the call. -/
theorem c10_failed_send_removes_entry (store : IRStore) (currentSeq : Nat)
    (irMsg : List Char) :
    storeGet (initiateIRSendFail store currentSeq irMsg).1 (allocSeq currentSeq) = none
    ∧ (∀ s, s ≠ allocSeq currentSeq →
        storeGet (initiateIRSendFail store currentSeq irMsg).1 s = storeGet store s)
    ∧ (storeGet store (allocSeq currentSeq) = none →
        ∀ s, storeGet (initiateIRSendFail store currentSeq irMsg).1 s = storeGet store s) := by
  have hdel : storeGet (initiateIRSendFail store currentSeq irMsg).1 (allocSeq currentSeq)
      = none := by
    simp [initiateIRSendFail, storeGet_del_self]
  have hother : ∀ s, s ≠ allocSeq currentSeq →
      storeGet (initiateIRSendFail store currentSeq irMsg).1 s = storeGet store s := by
    intro s hs
    simp only [initiateIRSendFail]
    rw [storeGet_del_ne _ _ _ hs, storeGet_set_ne _ _ _ _ hs]
  refine ⟨hdel, hother, ?_⟩
  intro h0 s
  by_cases hs : s = allocSeq currentSeq
  · rw [hs, hdel, h0]
  · exact hother s hs

/-- C10, witness: a failed send with counter 3 leaves no entry at sequence 3
and does not disturb the unrelated open session 9. -/
theorem c10_failed_send_removes_entry_witness :
    storeGet (initiateIRSendFail [(9, .send [] 0)] 3 ['x']).1 (allocSeq 3) = none
    ∧ storeGet (initiateIRSendFail [(9, .send [] 0)] 3 ['x']).1 9
        = storeGet [(9, .send [] 0)] 9
    ∧ storeGet (initiateIRSendFail [(9, .send [] 0)] 3 ['x']).1 3
        = storeGet [(9, .send [] 0)] 3 :=
  ⟨(c10_failed_send_removes_entry [(9, .send [] 0)] 3 ['x']).1,
   (c10_failed_send_removes_entry [(9, .send [] 0)] 3 ['x']).2.1 9 (by decide),
   (c10_failed_send_removes_entry [(9, .send [] 0)] 3 ['x']).2.2 (by decide) 3⟩

end ZS06
